import Mathlib

/-!
Shallow embedding of the genvm execution engine (package `vm` plus the `core`
error sentinels and interfaces) and proofs about its batch-apply, parse and
two-step validation behaviour.

Translation notes:
* Machine integers (versions, method selectors, nonces, balances, layers) are
  modelled as `Nat`; none of the verified paths exercise overflow.
* The binary codec (go-scale) is external to the repository, so a raw
  transaction is modelled by the outcome of each sequential decode step
  (`RawTx`): every field holds either the decoded value or the decode error the
  codec would return.  The handler-specific remainder of the payload is kept
  opaque.
* Go error values are modelled by the inductive `GoErr`; `errorsIs` mirrors
  `errors.Is` with respect to the `core` sentinel errors: wrapping with the
  Go verb for wrapped errors preserves the reachable sentinels, plain
  formatting does not.
* A Go `panic` is a distinct outcome from a returned error: fallible code
  returns values in `Res`, whose `crash` constructor marks a runtime panic.
-/

namespace GenVM

/-- Fixed-size account/template address (`core.Address`), modelled as `Nat`. -/
abbrev Address := Nat

/-- Account record (`types.Account`): balance, next-nonce counter, the optional
spawned-template address, the opaque state blob and the last-updated layer.
Modelled from the spec: the concrete struct is not under src/; the spec lists
exactly these fields, and `NextNonce()` is its nonce-counter accessor,
modelled here as the field `nextNonce`. -/
structure Account where
  address : Address
  balance : Nat
  nextNonce : Nat
  template : Option Address
  state : List Nat
  layer : Nat
deriving DecidableEq, Repr

/-- The sentinel errors declared in `core` (ErrInternal, ErrMalformed, ...). -/
inductive Sentinel where
  | internal
  | malformed
  | invalidNonce
  | noBalance
  | maxGas
  | maxSpend
  | spawned
  | notSpawned
  | auth
deriving DecidableEq, Repr

/-- Go error values, as built by the code under verification.  Constructors
with an `inner` argument model wrapping with the Go wrap verb (sentinels
reachable through `errors.Is` are preserved); leaf constructors model
`errors.New` or plain formatting (no sentinel reachable).  `internalWrap`
models wrapping where `core.ErrInternal` is wrapped and the inner error is
flattened to text, as in the batch-apply loop.  `external` stands for an error
produced outside the verified code (store, codec, handlers), carrying the list
of sentinels it wraps. -/
inductive GoErr where
  | sentinel (s : Sentinel)
  | unsupportedVersion (v : Nat)
  | decodePrincipal (inner : GoErr)
  | decodeMethod (inner : GoErr)
  | loadFailed (principal : Address) (inner : GoErr)
  | decodeTemplate (inner : GoErr)
  | notSpawnedPlain
  | unknownTemplate (a : Address)
  | internalWrap (inner : GoErr)
  | genesisUpdate (inner : GoErr)
  | external (code : Nat) (wrapped : List Sentinel)
deriving DecidableEq, Repr

/-- Mirrors `errors.Is err sentinel` for the error shapes above. -/
def errorsIs : GoErr → Sentinel → Bool
  | .sentinel t, s => decide (t = s)
  | .unsupportedVersion _, _ => false
  | .decodePrincipal e, s => errorsIs e s
  | .decodeMethod e, s => errorsIs e s
  | .loadFailed _ e, s => errorsIs e s
  | .decodeTemplate e, s => errorsIs e s
  | .notSpawnedPlain, _ => false
  | .unknownTemplate _, _ => false
  | .internalWrap _, s => decide (s = Sentinel.internal)
  | .genesisUpdate e, s => errorsIs e s
  | .external _ ws, s => ws.any fun t => decide (t = s)

/-- Outcome of one black-box decode step of the external codec. -/
inductive Dec (α : Type) where
  | ok (val : α)
  | fail (e : GoErr)
deriving DecidableEq, Repr

/-- A raw transaction, modelled by what the codec yields for each sequential
decode step of the wire envelope (version, principal, method selector and, for
spawn, the template address), plus the opaque handler-specific remainder and
the identity of the raw bytes. -/
structure RawTx where
  bytes : List Nat
  version : Dec Nat
  principal : Dec Address
  method : Dec Nat
  templateAddr : Dec Address
  payload : List Nat
deriving DecidableEq, Repr

/-- Decoded transaction envelope (`core.Header`), restricted to the fields
the verified paths read: principal, nonce counter and computed max-spend. -/
structure Header where
  principal : Address
  nonce : Nat
  maxSpend : Nat
deriving DecidableEq, Repr

/-- Opaque handler-decoded arguments (`scale.Encodable`). -/
abbrev Args := Nat

/-- Go panic messages that the embedded code can raise. -/
inductive CrashMsg where
  | nilTemplateDeref
  | verifyWithoutParse
deriving DecidableEq, Repr

/-- Result of running a piece of the embedded Go code: a returned value, a
returned error, or a runtime panic. -/
inductive Res (α : Type) where
  | ok (val : α)
  | err (e : GoErr)
  | crash (m : CrashMsg)
deriving DecidableEq, Repr

/-- True exactly when the result is a returned error value. -/
def Res.isErr {α : Type} : Res α → Bool
  | .err _ => true
  | _ => false

/-- Template instance (`core.Template`): max-spend estimation and signature
verification over the raw bytes.  Serialization is not needed by the claims. -/
structure TemplateT where
  maxSpend : Nat → Args → Except GoErr Nat
  verify : List Nat → Bool

/-- Effect of one `Handler.Exec` call: the (possibly mutated) principal
account, the other accounts the execution changed, and the returned error if
any.  Modelled from the spec: the Context accumulates this mutation until
`Context.Apply` flushes it into the Staged State. -/
structure ExecOut where
  account : Account
  changed : List Account
  err : Option GoErr

/-- Handler (`core.Handler`): decode header/arguments, instantiate the
template, execute a method.  Handlers are external template implementations;
each capability is an opaque function. -/
structure Handler where
  parseH : Nat → List Nat → Except GoErr (Header × Args)
  initH : Nat → Args → List Nat → Except GoErr TemplateT
  execH : Account → Nat → Args → ExecOut

/-- Execution context (`core.Context`).  Modelled from the spec: the concrete
struct is not under src/; the spec lists the per-transaction aggregate of
loader, chosen handler, loaded account snapshot, principal, method selector,
decoded header/arguments and instantiated template. -/
structure Context where
  loader : Address → Except GoErr Account
  handler : Handler
  account : Account
  principal : Address
  method : Nat
  args : Args
  header : Header
  template : TemplateT

/-- The persisted account store: one latest record per address.  Modelled from
the spec: the sql-backed store is external; later updates override earlier
records for the same address. -/
abbrev Store := List Account

/-- The update primitive of the store (`accounts.Update`): replace the record
for the account address.  Modelled from the spec. -/
def Store.update (db : Store) (a : Account) : Store :=
  a :: db.filter fun b => decide (b.address ≠ a.address)

/-- Read the latest record for an address, if present. -/
def Store.get? (db : Store) (addr : Address) : Option Account :=
  db.find? fun b => decide (b.address = addr)

/-- The account a load returns for an address with no record yet: an
unspawned account with zero balance and nonce.  Modelled from the spec: a
fresh address must load as a never-spawned account so that spawn can run. -/
def emptyAccount (addr : Address) : Account :=
  { address := addr, balance := 0, nextNonce := 0, template := none
    state := [], layer := 0 }

/-- Failure injection for the external store and database-transaction
machinery: whether opening the transaction, a get, an update or the final
commit fails, and with which error.  Modelled from the spec: the store is an
external transactional key-value component that may fail at any of these
points. -/
structure StoreFx where
  txFail : Option GoErr
  getFail : Address → Option GoErr
  updateFail : Account → Option GoErr
  commitFail : Option GoErr

/-- Failure-free store behaviour. -/
def fxNone : StoreFx :=
  { txFail := none, getFail := fun _ => none, updateFail := fun _ => none
    commitFail := none }

/-- The Staged State write buffer (`core.StagedState`).  Modelled from the
spec: an in-memory overlay of pending account mutations over the store,
scoped to one Apply call; `IterateChanged` walks this buffer. -/
structure Staged where
  buffer : List Account
deriving DecidableEq, Repr

/-- Fresh staged state at the start of a batch. -/
def Staged.empty : Staged := { buffer := [] }

/-- Record a pending mutation, overriding any previous one for the address. -/
def Staged.put (ss : Staged) (a : Account) : Staged :=
  { buffer := a :: ss.buffer.filter fun b => decide (b.address ≠ a.address) }

/-- Look up a pending mutation. -/
def Staged.get? (ss : Staged) (addr : Address) : Option Account :=
  ss.buffer.find? fun b => decide (b.address = addr)

/-- The account loader view of the staged state: pending mutations shadow the
store; a miss falls through to the store read, which may fail externally and
otherwise yields the latest record or a fresh empty account.  Modelled from
the spec. -/
def stagedLoader (fx : StoreFx) (db : Store) (ss : Staged) :
    Address → Except GoErr Account :=
  fun addr =>
    match ss.get? addr with
    | some a => .ok a
    | none =>
      match fx.getFail addr with
      | some e => .error e
      | none => .ok ((db.get? addr).getD (emptyAccount addr))

/-- Template-address resolution step of `parse` (source part_000 lines
260-271): for a spawn (method 0) decode the template address from the body;
otherwise take the account recorded template; a nil template fails with the
plain account-is-not-spawned error. -/
def resolveTemplate (method : Nat) (tx : RawTx) (account : Account) :
    Res Address :=
  if method = 0 then
    match tx.templateAddr with
    | .fail e => .err (.decodeTemplate e)
    | .ok t => .ok t
  else
    match account.template with
    | none => .err .notSpawnedPlain
    | some t => .ok t

/-- The parse step (source part_000 lines 237-302): decode version, principal
and method, load the principal account, resolve and look up the template,
then delegate to the handler for header/args, template instantiation and
max-spend.  On a registry miss the source formats `*account.Template`, which
dereferences the account pointer field — nil for an unspawned account —
modelled by the `crash` outcome. -/
def parse (loader : Address → Except GoErr Account)
    (reg : Address → Option Handler) (tx : RawTx) :
    Res (Header × Context × Args) :=
  match tx.version with
  | .fail e => .err e
  | .ok version =>
    if version ≠ 0 then .err (.unsupportedVersion version)
    else
      match tx.principal with
      | .fail e => .err (.decodePrincipal e)
      | .ok principal =>
        match tx.method with
        | .fail e => .err (.decodeMethod e)
        | .ok method =>
          match loader principal with
          | .error e => .err (.loadFailed principal e)
          | .ok account =>
            match resolveTemplate method tx account with
            | .crash m => .crash m
            | .err e => .err e
            | .ok tpl =>
              match reg tpl with
              | none =>
                match account.template with
                | none => .crash .nilTemplateDeref
                | some recorded => .err (.unknownTemplate recorded)
              | some handler =>
                match handler.parseH method tx.payload with
                | .error e => .err e
                | .ok (header0, args) =>
                  let header1 := { header0 with principal := principal }
                  match handler.initH method args account.state with
                  | .error e => .err e
                  | .ok tmpl =>
                    match tmpl.maxSpend method args with
                    | .error e => .err e
                    | .ok ms =>
                      .ok ({ header1 with maxSpend := ms },
                        { loader := loader, handler := handler
                          account := account, principal := principal
                          method := method, args := args
                          header := header1, template := tmpl }, args)

/-- Signature verification (source `verify`): delegate to the template over
the raw bytes. -/
def verify (ctx : Context) (raw : List Nat) : Bool :=
  ctx.template.verify raw

/-- `Context.Apply` (called on every non-aborted transaction).  Modelled from
the spec: flush the accumulated mutation into the Staged State — the
principal account with its nonce counter consumed, plus every other changed
account. -/
def ctxApply (hdr : Header) (principalAcct : Account)
    (changed : List Account) (ss : Staged) : Staged :=
  changed.foldl Staged.put (ss.put { principalAcct with nextNonce := hdr.nonce + 1 })

/-- The per-transaction loop of `VM.Apply` (source part_000 lines 163-188):
parse against the staged state (failure: append the raw transaction to the
skipped list and continue); nonce check (mismatch: append and continue);
`Handler.Exec` (an error wrapping Internal aborts the batch, any other
execution error only logs); then `Context.Apply` flushes the context mutation
into the staged state — the source runs this flush also after a non-Internal
execution error. -/
def applyLoop (reg : Address → Option Handler) (fx : StoreFx) (db : Store) :
    List RawTx → Staged → List RawTx → Res (List RawTx × Staged)
  | [], ss, skipped => .ok (skipped, ss)
  | t :: rest, ss, skipped =>
    match parse (stagedLoader fx db ss) reg t with
    | .crash m => .crash m
    | .err _ => applyLoop reg fx db rest ss (skipped ++ [t])
    | .ok (_, ctx, args) =>
      if ctx.account.nextNonce ≠ ctx.header.nonce then
        applyLoop reg fx db rest ss (skipped ++ [t])
      else
        let out := ctx.handler.execH ctx.account ctx.method args
        match out.err with
        | some e =>
          if errorsIs e .internal then .err e
          else applyLoop reg fx db rest (ctxApply ctx.header out.account out.changed ss) skipped
        | none => applyLoop reg fx db rest (ctxApply ctx.header out.account out.changed ss) skipped

/-- The final flush of `VM.Apply` (source part_000 lines 189-194): every
pending account mutation stamped with the current layer. -/
def stampWrites (lid : Nat) (ss : Staged) : List Account :=
  ss.buffer.map fun a => { a with layer := lid }

/-- `VM.Apply` (source part_000 lines 150-206): open one store transaction,
run the per-transaction loop over a fresh staged state, then stamp every
changed account with the layer and persist it, and commit.  Returned pair:
the result (skipped list, returned error, or propagated panic) and the store
as visible to subsequent reads — unchanged unless the commit ran, since the
deferred release of the store transaction rolls back anything uncommitted
(rollback semantics modelled from the spec). -/
def Apply (reg : Address → Option Handler) (fx : StoreFx) (db : Store)
    (lid : Nat) (txs : List RawTx) : Res (List RawTx) × Store :=
  match fx.txFail with
  | some e => (.err e, db)
  | none =>
    match applyLoop reg fx db txs Staged.empty [] with
    | .crash m => (.crash m, db)
    | .err e => (.err e, db)
    | .ok (skipped, ss) =>
      match (stampWrites lid ss).find? (fun a => (fx.updateFail a).isSome) with
      | some a => (.err (.internalWrap ((fx.updateFail a).getD (.sentinel .internal))), db)
      | none =>
        match fx.commitFail with
        | some e => (.err (.internalWrap e), db)
        | none => (.ok skipped, (stampWrites lid ss).foldl Store.update db)

/-- The write loop of `ApplyGenesis` (source part_000 lines 139-146) followed
by the commit: write each record verbatim into the store transaction, wrap a
write failure with the inserting-genesis-account message, and publish the
writes on commit. -/
def genesisGo (fx : StoreFx) : Store → List Account → Except GoErr Store
  | pending, [] =>
    match fx.commitFail with
    | some e => .error e
    | none => .ok pending
  | pending, a :: rest =>
    match fx.updateFail a with
    | some e => .error (.genesisUpdate e)
    | none => genesisGo fx (Store.update pending a) rest

/-- `VM.ApplyGenesis` (source part_000 lines 132-147): one store transaction,
each given account written verbatim (no execution, no nonce checks), then
commit.  The second component is the store visible to subsequent reads:
unchanged unless the commit succeeded. -/
def ApplyGenesis (fx : StoreFx) (db : Store) (genesis : List Account) :
    Except GoErr Unit × Store :=
  match fx.txFail with
  | some e => (.error e, db)
  | none =>
    match genesisGo fx db genesis with
    | .error e => (.error e, db)
    | .ok db2 => (.ok (), db2)

/-- Two-step validation request (source part_000 lines 208-217): raw bytes,
their decode model, the loader and registry the bound VM uses, and the
context recorded by a successful Parse. -/
structure Request where
  loader : Address → Except GoErr Account
  reg : Address → Option Handler
  raw : List Nat
  rawTx : RawTx
  ctx : Option Context

/-- `VM.Validation` (source part_000 lines 114-121): a fresh request with no
recorded context. -/
def Validation (loader : Address → Except GoErr Account)
    (reg : Address → Option Handler) (raw : List Nat) (rawTx : RawTx) :
    Request :=
  { loader := loader, reg := reg, raw := raw, rawTx := rawTx, ctx := none }

/-- `Request.Parse` (source part_000 lines 219-227): run the parse step; on
success record the context and return the header; on error leave the request
unchanged. -/
def Request.Parse (r : Request) : Res Header × Request :=
  match parse r.loader r.reg r.rawTx with
  | .ok (h, c, _) => (.ok h, { r with ctx := some c })
  | .err e => (.err e, r)
  | .crash m => (.crash m, r)

/-- `Request.Verify` (source part_000 lines 229-235): with no recorded
context it panics with the message that Verify should be called after a
successful Parse; otherwise it delegates to the template verification. -/
def Request.Verify (r : Request) : Res Bool :=
  match r.ctx with
  | none => .crash .verifyWithoutParse
  | some c => .ok (verify c r.raw)

/-! ### The specification-side characterization of the skipped list

Following the words of the spec (return value of batch apply): the list of
transactions skipped at the parse step or the nonce step, in original
submission order, threading the same staged-state evolution as the batch. -/

/-- Spec-side skipped list: collect, in submission order, exactly the
transactions that fail parsing or the nonce check; transactions failing only
at execution time are not collected.  An Internal execution error ends the
batch, which then returns no skipped list at all. -/
def skippedPerSpec (reg : Address → Option Handler) (fx : StoreFx)
    (db : Store) : List RawTx → Staged → List RawTx
  | [], _ => []
  | t :: rest, ss =>
    match parse (stagedLoader fx db ss) reg t with
    | .crash _ => []
    | .err _ => t :: skippedPerSpec reg fx db rest ss
    | .ok (_, ctx, args) =>
      if ctx.account.nextNonce ≠ ctx.header.nonce then
        t :: skippedPerSpec reg fx db rest ss
      else
        let out := ctx.handler.execH ctx.account ctx.method args
        match out.err with
        | some e =>
          if errorsIs e .internal then []
          else skippedPerSpec reg fx db rest (ctxApply ctx.header out.account out.changed ss)
        | none => skippedPerSpec reg fx db rest (ctxApply ctx.header out.account out.changed ss)

/-- Boolean layer-stamp check used to state the flush invariant. -/
def layerIs (lid : Nat) (a : Account) : Bool :=
  decide (a.layer = lid)

/-- Boolean read-back check for one genesis record. -/
def readsBack (db : Store) (a : Account) : Bool :=
  decide (db.get? a.address = some a)

/-- Spec-side genesis contract: on success every given record reads back
verbatim; on failure the visible store is unchanged. -/
def genesisRoundtrip (fx : StoreFx) (db : Store) (genesis : List Account) :
    Bool :=
  match ApplyGenesis fx db genesis with
  | (.ok _, db2) => genesis.all (readsBack db2)
  | (.error _, db2) => decide (db2 = db)

/-! ### Concrete fixtures used by counterexamples and witnesses -/

/-- A template whose max-spend is zero and whose verification accepts. -/
def tmplW : TemplateT :=
  { maxSpend := fun _ _ => .ok 0, verify := fun _ => true }

/-- Header a fixture handler decodes: nonce 0, before principal/max-spend are
attached by `parse`. -/
def header0W : Header := { principal := 0, nonce := 0, maxSpend := 0 }

/-- The extra account a fixture execution writes. -/
def acct99 : Account :=
  { address := 99, balance := 77, nextNonce := 0, template := none
    state := [], layer := 0 }

/-- Fixture handler: decoding and instantiation always succeed, execution
registers `acct99` as changed and finishes with the given error outcome. -/
def mkHandler (eo : Option GoErr) : Handler :=
  { parseH := fun _ _ => .ok (header0W, 0)
    initH := fun _ _ _ => .ok tmplW
    execH := fun a _ _ => { account := a, changed := [acct99], err := eo } }

/-- Handler whose execution succeeds. -/
def handlerOk : Handler := mkHandler none

/-- Handler whose execution fails with the no-balance sentinel (a
transaction-attributable policy error, not Internal). -/
def handlerNB : Handler := mkHandler (some (.sentinel .noBalance))

/-- Handler whose execution fails with an error wrapping ErrInternal. -/
def handlerInt : Handler := mkHandler (some (.external 1 [.internal]))

/-- Registry mapping template address 7 to the given handler. -/
def regOf (h : Handler) : Address → Option Handler :=
  fun a => if a = 7 then some h else none

/-- Empty registry: every template address misses. -/
def regNone : Address → Option Handler := fun _ => none

/-- The principal fixture account: address 5, spawned with template 7,
balance 100, next nonce 0. -/
def acctP : Account :=
  { address := 5, balance := 100, nextNonce := 0, template := some 7
    state := [], layer := 0 }

/-- Store holding exactly the principal fixture account. -/
def db0 : Store := [acctP]

/-- A well-formed transaction from principal 5, method 1, nonce 0. -/
def txGood : RawTx :=
  { bytes := [1], version := .ok 0, principal := .ok 5, method := .ok 1
    templateAddr := .ok 0, payload := [] }

/-- A transaction carrying the unsupported version tag 1. -/
def txBadVer : RawTx :=
  { bytes := [2], version := .ok 1, principal := .ok 5, method := .ok 1
    templateAddr := .ok 0, payload := [] }

/-- A spawn transaction (method 0) from the fresh principal 11 whose decoded
template address 42 is not registered. -/
def txSpawnUnknown : RawTx :=
  { bytes := [3], version := .ok 0, principal := .ok 11, method := .ok 0
    templateAddr := .ok 42, payload := [] }

/-- A spawn transaction from the already-spawned principal 5 whose decoded
template address 42 is not registered. -/
def txSpawnUnknownSpawned : RawTx :=
  { bytes := [4], version := .ok 0, principal := .ok 5, method := .ok 0
    templateAddr := .ok 42, payload := [] }

/-- Store behaviour where loading address 5 fails with an error wrapping
ErrInternal (store unavailable). -/
def fxLoadFail : StoreFx :=
  { fxNone with getFail := fun a => if a = 5 then some (.external 3 [.internal]) else none }

/-- The context `parse` yields for `txGood` over `db0` under handler `h`. -/
def ctxW (h : Handler) (db : Store) (fx : StoreFx) : Context :=
  { loader := stagedLoader fx db Staged.empty, handler := h, account := acctP
    principal := 5, method := 1, args := 0
    header := { principal := 5, nonce := 0, maxSpend := 0 }, template := tmplW }

/-! ### Step equations of the batch loop and its spec-side characterization

One equation per branch of the per-transaction loop, phrased over an
arbitrary reached state, plus the matching equations for `skippedPerSpec`. -/

/-- Parse failure: the raw transaction is appended to the skipped list and
the loop continues with the staged state untouched. -/
theorem applyLoop_cons_parseErr (reg : Address → Option Handler) (fx : StoreFx)
    (db : Store) (t : RawTx) (rest : List RawTx) (ss : Staged)
    (acc : List RawTx) (e : GoErr)
    (hp : parse (stagedLoader fx db ss) reg t = .err e) :
    applyLoop reg fx db (t :: rest) ss acc
      = applyLoop reg fx db rest ss (acc ++ [t]) := by
  simp only [applyLoop]
  rw [hp]

/-- A parse panic propagates out of the loop. -/
theorem applyLoop_cons_crash (reg : Address → Option Handler) (fx : StoreFx)
    (db : Store) (t : RawTx) (rest : List RawTx) (ss : Staged)
    (acc : List RawTx) (m : CrashMsg)
    (hp : parse (stagedLoader fx db ss) reg t = .crash m) :
    applyLoop reg fx db (t :: rest) ss acc = .crash m := by
  simp only [applyLoop]
  rw [hp]

/-- Nonce mismatch: the raw transaction is appended to the skipped list, no
execution happens, and the loop continues with the staged state untouched. -/
theorem applyLoop_cons_nonceMismatch (reg : Address → Option Handler)
    (fx : StoreFx) (db : Store) (t : RawTx) (rest : List RawTx) (ss : Staged)
    (acc : List RawTx) (hd : Header) (ctx : Context) (args : Args)
    (hp : parse (stagedLoader fx db ss) reg t = .ok (hd, ctx, args))
    (hn : ctx.account.nextNonce ≠ ctx.header.nonce) :
    applyLoop reg fx db (t :: rest) ss acc
      = applyLoop reg fx db rest ss (acc ++ [t]) := by
  simp only [applyLoop]
  rw [hp]
  simp only [ne_eq, hn, not_false_eq_true, if_true]

/-- Execution error wrapping Internal: the loop returns that error. -/
theorem applyLoop_cons_execInternal (reg : Address → Option Handler)
    (fx : StoreFx) (db : Store) (t : RawTx) (rest : List RawTx) (ss : Staged)
    (acc : List RawTx) (hd : Header) (ctx : Context) (args : Args)
    (out : ExecOut) (e : GoErr)
    (hp : parse (stagedLoader fx db ss) reg t = .ok (hd, ctx, args))
    (hn : ctx.account.nextNonce = ctx.header.nonce)
    (hx : ctx.handler.execH ctx.account ctx.method args = out)
    (ho : out.err = some e)
    (hi : errorsIs e .internal = true) :
    applyLoop reg fx db (t :: rest) ss acc = .err e := by
  simp only [applyLoop]
  rw [hp]
  simp only [hn, ne_eq, not_true_eq_false, if_false]
  rw [hx, ho]
  simp only [hi, if_true]

/-- Execution error not wrapping Internal: the transaction is not added to
the skipped list, and the loop continues after the context flush. -/
theorem applyLoop_cons_execCont (reg : Address → Option Handler)
    (fx : StoreFx) (db : Store) (t : RawTx) (rest : List RawTx) (ss : Staged)
    (acc : List RawTx) (hd : Header) (ctx : Context) (args : Args)
    (out : ExecOut) (e : GoErr)
    (hp : parse (stagedLoader fx db ss) reg t = .ok (hd, ctx, args))
    (hn : ctx.account.nextNonce = ctx.header.nonce)
    (hx : ctx.handler.execH ctx.account ctx.method args = out)
    (ho : out.err = some e)
    (hi : errorsIs e .internal = false) :
    applyLoop reg fx db (t :: rest) ss acc
      = applyLoop reg fx db rest (ctxApply ctx.header out.account out.changed ss) acc := by
  simp only [applyLoop]
  rw [hp]
  simp only [hn, ne_eq, not_true_eq_false, if_false]
  rw [hx, ho]
  simp only [hi, Bool.false_eq_true, if_false]

/-- Successful execution: the loop continues after the context flush. -/
theorem applyLoop_cons_execOk (reg : Address → Option Handler)
    (fx : StoreFx) (db : Store) (t : RawTx) (rest : List RawTx) (ss : Staged)
    (acc : List RawTx) (hd : Header) (ctx : Context) (args : Args)
    (out : ExecOut)
    (hp : parse (stagedLoader fx db ss) reg t = .ok (hd, ctx, args))
    (hn : ctx.account.nextNonce = ctx.header.nonce)
    (hx : ctx.handler.execH ctx.account ctx.method args = out)
    (ho : out.err = none) :
    applyLoop reg fx db (t :: rest) ss acc
      = applyLoop reg fx db rest (ctxApply ctx.header out.account out.changed ss) acc := by
  simp only [applyLoop]
  rw [hp]
  simp only [hn, ne_eq, not_true_eq_false, if_false]
  rw [hx, ho]

/-- Spec-side equation: a parse failure is collected. -/
theorem skippedPerSpec_cons_parseErr (reg : Address → Option Handler)
    (fx : StoreFx) (db : Store) (t : RawTx) (rest : List RawTx) (ss : Staged)
    (e : GoErr)
    (hp : parse (stagedLoader fx db ss) reg t = .err e) :
    skippedPerSpec reg fx db (t :: rest) ss
      = t :: skippedPerSpec reg fx db rest ss := by
  simp only [skippedPerSpec]
  rw [hp]

/-- Spec-side equation: a nonce mismatch is collected. -/
theorem skippedPerSpec_cons_nonceMismatch (reg : Address → Option Handler)
    (fx : StoreFx) (db : Store) (t : RawTx) (rest : List RawTx) (ss : Staged)
    (hd : Header) (ctx : Context) (args : Args)
    (hp : parse (stagedLoader fx db ss) reg t = .ok (hd, ctx, args))
    (hn : ctx.account.nextNonce ≠ ctx.header.nonce) :
    skippedPerSpec reg fx db (t :: rest) ss
      = t :: skippedPerSpec reg fx db rest ss := by
  simp only [skippedPerSpec]
  rw [hp]
  simp only [ne_eq, hn, not_false_eq_true, if_true]

/-- Spec-side equation: a non-Internal execution error is not collected. -/
theorem skippedPerSpec_cons_execCont (reg : Address → Option Handler)
    (fx : StoreFx) (db : Store) (t : RawTx) (rest : List RawTx) (ss : Staged)
    (hd : Header) (ctx : Context) (args : Args) (out : ExecOut) (e : GoErr)
    (hp : parse (stagedLoader fx db ss) reg t = .ok (hd, ctx, args))
    (hn : ctx.account.nextNonce = ctx.header.nonce)
    (hx : ctx.handler.execH ctx.account ctx.method args = out)
    (ho : out.err = some e)
    (hi : errorsIs e .internal = false) :
    skippedPerSpec reg fx db (t :: rest) ss
      = skippedPerSpec reg fx db rest (ctxApply ctx.header out.account out.changed ss) := by
  simp only [skippedPerSpec]
  rw [hp]
  simp only [hn, ne_eq, not_true_eq_false, if_false]
  rw [hx, ho]
  simp only [hi, Bool.false_eq_true, if_false]

/-- Spec-side equation: a successful execution is not collected. -/
theorem skippedPerSpec_cons_execOk (reg : Address → Option Handler)
    (fx : StoreFx) (db : Store) (t : RawTx) (rest : List RawTx) (ss : Staged)
    (hd : Header) (ctx : Context) (args : Args) (out : ExecOut)
    (hp : parse (stagedLoader fx db ss) reg t = .ok (hd, ctx, args))
    (hn : ctx.account.nextNonce = ctx.header.nonce)
    (hx : ctx.handler.execH ctx.account ctx.method args = out)
    (ho : out.err = none) :
    skippedPerSpec reg fx db (t :: rest) ss
      = skippedPerSpec reg fx db rest (ctxApply ctx.header out.account out.changed ss) := by
  simp only [skippedPerSpec]
  rw [hp]
  simp only [hn, ne_eq, not_true_eq_false, if_false]
  rw [hx, ho]

/-! ### Global lemmas about the batch loop -/

/-- Transactions already in the accumulator stay in the returned skipped
list. -/
theorem applyLoop_mem_acc (reg : Address → Option Handler) (fx : StoreFx)
    (db : Store) :
    ∀ (txs : List RawTx) (ss : Staged) (acc sk : List RawTx) (s2 : Staged)
      (a : RawTx), a ∈ acc →
      applyLoop reg fx db txs ss acc = .ok (sk, s2) → a ∈ sk := by
  intro txs
  induction txs with
  | nil =>
    intro ss acc sk s2 a ha h
    simp only [applyLoop, Res.ok.injEq, Prod.mk.injEq] at h
    exact h.1 ▸ ha
  | cons t rest ih =>
    intro ss acc sk s2 a ha h
    cases hp : parse (stagedLoader fx db ss) reg t with
    | crash m =>
      rw [applyLoop_cons_crash reg fx db t rest ss acc m hp] at h
      exact absurd h (by simp)
    | err e =>
      rw [applyLoop_cons_parseErr reg fx db t rest ss acc e hp] at h
      exact ih ss (acc ++ [t]) sk s2 a (List.mem_append_left _ ha) h
    | ok v =>
      obtain ⟨hd, ctx, args⟩ := v
      by_cases hn : ctx.account.nextNonce = ctx.header.nonce
      · cases ho : (ctx.handler.execH ctx.account ctx.method args).err with
        | some e =>
          by_cases hi : errorsIs e .internal = true
          · rw [applyLoop_cons_execInternal reg fx db t rest ss acc hd ctx args
              _ e hp hn rfl ho hi] at h
            exact absurd h (by simp)
          · rw [applyLoop_cons_execCont reg fx db t rest ss acc hd ctx args
              _ e hp hn rfl ho (by simpa using hi)] at h
            exact ih _ acc sk s2 a ha h
        | none =>
          rw [applyLoop_cons_execOk reg fx db t rest ss acc hd ctx args
            _ hp hn rfl ho] at h
          exact ih _ acc sk s2 a ha h
      · rw [applyLoop_cons_nonceMismatch reg fx db t rest ss acc hd ctx args hp hn] at h
        exact ih ss (acc ++ [t]) sk s2 a (List.mem_append_left _ ha) h

/-- The returned skipped list is the accumulator followed by the spec-side
characterization: exactly the parse or nonce failures, in original order. -/
theorem applyLoop_ok_skipped (reg : Address → Option Handler) (fx : StoreFx)
    (db : Store) :
    ∀ (txs : List RawTx) (ss : Staged) (acc sk : List RawTx) (s2 : Staged),
      applyLoop reg fx db txs ss acc = .ok (sk, s2) →
      sk = acc ++ skippedPerSpec reg fx db txs ss := by
  intro txs
  induction txs with
  | nil =>
    intro ss acc sk s2 h
    simp only [applyLoop, Res.ok.injEq, Prod.mk.injEq] at h
    simp [skippedPerSpec, h.1.symm]
  | cons t rest ih =>
    intro ss acc sk s2 h
    cases hp : parse (stagedLoader fx db ss) reg t with
    | crash m =>
      rw [applyLoop_cons_crash reg fx db t rest ss acc m hp] at h
      exact absurd h (by simp)
    | err e =>
      rw [applyLoop_cons_parseErr reg fx db t rest ss acc e hp] at h
      rw [skippedPerSpec_cons_parseErr reg fx db t rest ss e hp]
      have h2 := ih ss (acc ++ [t]) sk s2 h
      simp [h2]
    | ok v =>
      obtain ⟨hd, ctx, args⟩ := v
      by_cases hn : ctx.account.nextNonce = ctx.header.nonce
      · cases ho : (ctx.handler.execH ctx.account ctx.method args).err with
        | some e =>
          by_cases hi : errorsIs e .internal = true
          · rw [applyLoop_cons_execInternal reg fx db t rest ss acc hd ctx args
              _ e hp hn rfl ho hi] at h
            exact absurd h (by simp)
          · rw [applyLoop_cons_execCont reg fx db t rest ss acc hd ctx args
              _ e hp hn rfl ho (by simpa using hi)] at h
            rw [skippedPerSpec_cons_execCont reg fx db t rest ss hd ctx args
              _ e hp hn rfl ho (by simpa using hi)]
            exact ih _ acc sk s2 h
        | none =>
          rw [applyLoop_cons_execOk reg fx db t rest ss acc hd ctx args
            _ hp hn rfl ho] at h
          rw [skippedPerSpec_cons_execOk reg fx db t rest ss hd ctx args
            _ hp hn rfl ho]
          exact ih _ acc sk s2 h
      · rw [applyLoop_cons_nonceMismatch reg fx db t rest ss acc hd ctx args hp hn] at h
        rw [skippedPerSpec_cons_nonceMismatch reg fx db t rest ss hd ctx args hp hn]
        have h2 := ih ss (acc ++ [t]) sk s2 h
        simp [h2]

/-- The spec-side skipped list is a subsequence of the submitted batch. -/
theorem skippedPerSpec_sublist (reg : Address → Option Handler) (fx : StoreFx)
    (db : Store) :
    ∀ (txs : List RawTx) (ss : Staged),
      List.Sublist (skippedPerSpec reg fx db txs ss) txs := by
  intro txs
  induction txs with
  | nil => intro ss; simp [skippedPerSpec]
  | cons t rest ih =>
    intro ss
    cases hp : parse (stagedLoader fx db ss) reg t with
    | crash m =>
      simp only [skippedPerSpec]
      rw [hp]
      exact List.nil_sublist _
    | err e =>
      rw [skippedPerSpec_cons_parseErr reg fx db t rest ss e hp]
      exact List.Sublist.cons₂ t (ih ss)
    | ok v =>
      obtain ⟨hd, ctx, args⟩ := v
      by_cases hn : ctx.account.nextNonce = ctx.header.nonce
      · cases ho : (ctx.handler.execH ctx.account ctx.method args).err with
        | some e =>
          by_cases hi : errorsIs e .internal = true
          · simp only [skippedPerSpec]
            rw [hp]
            simp only [hn, ne_eq, not_true_eq_false, if_false]
            rw [ho]
            simp only [hi, if_true]
            exact List.nil_sublist _
          · rw [skippedPerSpec_cons_execCont reg fx db t rest ss hd ctx args
              _ e hp hn rfl ho (by simpa using hi)]
            exact List.Sublist.cons t (ih _)
        | none =>
          rw [skippedPerSpec_cons_execOk reg fx db t rest ss hd ctx args
            _ hp hn rfl ho]
          exact List.Sublist.cons t (ih _)
      · rw [skippedPerSpec_cons_nonceMismatch reg fx db t rest ss hd ctx args hp hn]
        exact List.Sublist.cons₂ t (ih ss)

/-- Every record in the final flush carries the stamping layer. -/
theorem stampWrites_all_layer (lid : Nat) (ss : Staged) :
    (stampWrites lid ss).all (layerIs lid) = true := by
  simp only [stampWrites, List.all_map, List.all_eq_true]
  intro a _
  simp [layerIs, Function.comp]

/-! ### Lemmas about the store update primitive and the genesis write loop -/

/-- Filtering with a predicate that only drops elements the search predicate
rejects does not change the result of the search. -/
theorem find?_filter_of_imp (p q : Account → Bool) (l : List Account)
    (himp : ∀ b, q b = false → p b = false) :
    (l.filter q).find? p = l.find? p := by
  induction l with
  | nil => rfl
  | cons c tl ih =>
    by_cases hq : q c = true
    · rw [List.filter_cons_of_pos hq]
      by_cases hp : p c = true
      · rw [List.find?_cons_of_pos _ hp, List.find?_cons_of_pos _ hp]
      · have hp2 : ¬ p c := by simpa using hp
        rw [List.find?_cons_of_neg _ hp2, List.find?_cons_of_neg _ hp2]
        exact ih
    · have hq2 : q c = false := by simpa using hq
      rw [List.filter_cons_of_neg (by simpa using hq)]
      rw [List.find?_cons_of_neg _ (by simp [himp c hq2])]
      exact ih

/-- After an update, the written account reads back. -/
theorem Store.get?_update_self (db : Store) (a : Account) :
    (Store.update db a).get? a.address = some a := by
  simp only [Store.update, Store.get?]
  rw [List.find?_cons_of_pos _ (by simp)]

/-- An update leaves every other address unchanged. -/
theorem Store.get?_update_other (db : Store) (a : Account) (x : Address)
    (hx : a.address ≠ x) : (Store.update db a).get? x = db.get? x := by
  simp only [Store.update, Store.get?]
  rw [List.find?_cons_of_neg _ (by simp [hx])]
  exact find?_filter_of_imp _ _ db fun b hb => by
    have hb2 : b.address = a.address := by
      by_contra hne
      simp [hne] at hb
    simp [hb2, hx]

/-- The genesis write loop does not touch addresses outside the written
list. -/
theorem genesisGo_frame (fx : StoreFx) (x : Address) :
    ∀ (rest : List Account) (pending sfinal : Store),
      (∀ b ∈ rest, b.address ≠ x) →
      genesisGo fx pending rest = .ok sfinal →
      sfinal.get? x = pending.get? x := by
  intro rest
  induction rest with
  | nil =>
    intro pending sfinal hb h
    simp only [genesisGo] at h
    cases hc : fx.commitFail with
    | some e => rw [hc] at h; exact absurd h (by simp)
    | none =>
      rw [hc] at h
      simp only [Except.ok.injEq] at h
      rw [h]
  | cons a tl ih =>
    intro pending sfinal hb h
    simp only [genesisGo] at h
    cases hu : fx.updateFail a with
    | some e => rw [hu] at h; exact absurd h (by simp)
    | none =>
      rw [hu] at h
      have h2 := ih (Store.update pending a) sfinal
        (fun b hb2 => hb b (List.mem_cons_of_mem _ hb2)) h
      rw [h2, Store.get?_update_other pending a x (hb a (List.mem_cons_self a tl))]

/-- On a successful genesis write loop, every written record reads back
verbatim, provided the written addresses are pairwise distinct. -/
theorem genesisGo_reads_back (fx : StoreFx) :
    ∀ (genesis : List Account) (pending sfinal : Store),
      (genesis.map Account.address).Nodup →
      genesisGo fx pending genesis = .ok sfinal →
      ∀ a ∈ genesis, sfinal.get? a.address = some a := by
  intro genesis
  induction genesis with
  | nil => intro pending sfinal _ _ a ha; exact absurd ha (by simp)
  | cons c tl ih =>
    intro pending sfinal hnd h a ha
    simp only [genesisGo] at h
    cases hu : fx.updateFail c with
    | some e => rw [hu] at h; exact absurd h (by simp)
    | none =>
      rw [hu] at h
      have hnd2 : (∀ x ∈ tl, ¬ x.address = c.address) ∧ (tl.map Account.address).Nodup := by
        simpa using hnd
      rcases List.mem_cons.mp ha with rfl | hmem
      · have hne : ∀ b ∈ tl, b.address ≠ a.address := fun b hbtl => hnd2.1 b hbtl
        rw [genesisGo_frame fx a.address tl _ _ hne h]
        exact Store.get?_update_self pending a
      · exact ih (Store.update pending c) sfinal hnd2.2 h a hmem

/-- A successful Apply comes from a successful loop run, and the committed
store is the initial store overwritten with the stamped flush of the final
staged state. -/
theorem Apply_ok_loop (reg : Address → Option Handler) (fx : StoreFx)
    (db : Store) (lid : Nat) (txs sk : List RawTx) (db2 : Store)
    (h : Apply reg fx db lid txs = (.ok sk, db2)) :
    ∃ ss, applyLoop reg fx db txs Staged.empty [] = .ok (sk, ss)
      ∧ db2 = (stampWrites lid ss).foldl Store.update db := by
  unfold Apply at h
  cases ht : fx.txFail with
  | some e => rw [ht] at h; exact absurd h (by simp)
  | none =>
    simp only [ht] at h
    cases hl : applyLoop reg fx db txs Staged.empty [] with
    | crash m => rw [hl] at h; exact absurd h (by simp)
    | err e => rw [hl] at h; exact absurd h (by simp)
    | ok v =>
      obtain ⟨skipped, ss⟩ := v
      simp only [hl] at h
      cases hf : (stampWrites lid ss).find? (fun a => (fx.updateFail a).isSome) with
      | some a => rw [hf] at h; exact absurd h (by simp)
      | none =>
        simp only [hf] at h
        cases hc : fx.commitFail with
        | some e => rw [hc] at h; exact absurd h (by simp)
        | none =>
          simp only [hc, Prod.mk.injEq, Res.ok.injEq] at h
          exact ⟨ss, by rw [← h.1], h.2.symm⟩

/-- An Apply whose loop run aborts with a returned error leaves the visible
store untouched and propagates the error. -/
theorem Apply_loop_err (reg : Address → Option Handler) (fx : StoreFx)
    (db : Store) (lid : Nat) (txs : List RawTx) (e : GoErr)
    (ht : fx.txFail = none)
    (hl : applyLoop reg fx db txs Staged.empty [] = .err e) :
    Apply reg fx db lid txs = (.err e, db) := by
  unfold Apply
  rw [ht, hl]

/-! ### Claim theorems -/

/-- C1 counterexample: on a freshly created validation Request, on which
Parse has never completed, Verify panics — it does not return an error
value — refuting the claim that the precondition violation is surfaced as a
defined error result and never as a crash. -/
theorem c1_counterexample :
    (Validation (stagedLoader fxNone db0 Staged.empty) (regOf handlerOk) [9] txGood).Verify
        = .crash .verifyWithoutParse
    ∧ ((Validation (stagedLoader fxNone db0 Staged.empty) (regOf handlerOk) [9] txGood).Verify).isErr
        = false :=
  ⟨rfl, rfl⟩

/-- C1 (amended): for every Request on which Parse has not completed
successfully — so no context is recorded — Verify deterministically panics
with the fixed message that Verify should be called after a successful
Parse: a defined precondition check that crashes rather than returning a
value, and (being a pure read of the request) corrupts no state. -/
theorem c1_verify_without_parse_panics (r : Request) (h : r.ctx = none) :
    r.Verify = .crash .verifyWithoutParse := by
  unfold Request.Verify
  rw [h]

/-- C1 witness: the amended statement at a concrete fresh request. -/
theorem c1_witness :
    (Validation (stagedLoader fxNone db0 Staged.empty) regNone [9] txBadVer).Verify
      = .crash .verifyWithoutParse :=
  c1_verify_without_parse_panics _ rfl

/-- C2: on every successful Apply, the returned list equals the spec-side
characterization — exactly the transactions that failed parsing or the nonce
check, collected in original submission order while threading the staged
state of the batch — and is a subsequence of the batch; transactions that
fail only at execution time are therefore never in it. -/
theorem c2_skipped_exactly_parse_or_nonce (reg : Address → Option Handler)
    (fx : StoreFx) (db : Store) (lid : Nat) (txs sk : List RawTx)
    (db2 : Store) (h : Apply reg fx db lid txs = (.ok sk, db2)) :
    sk = skippedPerSpec reg fx db txs Staged.empty
    ∧ List.Sublist sk txs := by
  obtain ⟨ss, hl, _⟩ := Apply_ok_loop reg fx db lid txs sk db2 h
  have h1 := applyLoop_ok_skipped reg fx db txs Staged.empty [] sk ss hl
  simp only [List.nil_append] at h1
  refine ⟨h1, ?_⟩
  rw [h1]
  exact skippedPerSpec_sublist reg fx db txs Staged.empty

/-- C2 witness: a batch of a malformed and a successful transaction. -/
theorem c2_witness :
    [txBadVer] = skippedPerSpec (regOf handlerOk) fxNone db0 [txBadVer, txGood] Staged.empty
    ∧ List.Sublist [txBadVer] [txBadVer, txGood] :=
  c2_skipped_exactly_parse_or_nonce (regOf handlerOk) fxNone db0 3
    [txBadVer, txGood] [txBadVer]
    [{ acctP with nextNonce := 1, layer := 3 }, { acct99 with layer := 3 }]
    (by decide)

/-- C3 counterexample: a load failure whose store error wraps ErrInternal is
skipped by Apply, which then succeeds — the batch is not aborted — refuting
the claim that a loader failure during parse aborts the whole batch. -/
theorem c3_counterexample :
    parse (stagedLoader fxLoadFail db0 Staged.empty) (regOf handlerOk) txGood
        = .err (.loadFailed 5 (.external 3 [.internal]))
    ∧ errorsIs (.loadFailed 5 (.external 3 [.internal])) .internal = true
    ∧ Apply (regOf handlerOk) fxLoadFail db0 9 [txGood] = (.ok [txGood], db0) :=
  ⟨rfl, rfl, rfl⟩

/-- C3 (amended): a failure to load the principal account during parsing is
returned as an error that wraps the loader error — it is Internal exactly
when the store error is, no classification is added — and inside Apply such
a parse failure appends the transaction to the skipped list and the batch
continues with the staged state untouched, rather than aborting. -/
theorem c3_load_failure_skips_and_continues (reg : Address → Option Handler)
    (fx : StoreFx) (db : Store) (t : RawTx) (rest : List RawTx) (ss : Staged)
    (acc : List RawTx) (p m : Nat) (e : GoErr)
    (h1 : t.version = .ok 0) (h2 : t.principal = .ok p)
    (h3 : t.method = .ok m) (h4 : stagedLoader fx db ss p = .error e) :
    parse (stagedLoader fx db ss) reg t = .err (.loadFailed p e)
    ∧ applyLoop reg fx db (t :: rest) ss acc
        = applyLoop reg fx db rest ss (acc ++ [t])
    ∧ errorsIs (.loadFailed p e) .internal = errorsIs e .internal := by
  have hp : parse (stagedLoader fx db ss) reg t = .err (.loadFailed p e) := by
    simp only [parse, h1, h2, h3, h4]
    simp
  exact ⟨hp, applyLoop_cons_parseErr reg fx db t rest ss acc _ hp, rfl⟩

/-- C3 witness: the amended statement at the concrete failing store. -/
theorem c3_witness :
    parse (stagedLoader fxLoadFail db0 Staged.empty) (regOf handlerOk) txGood
        = .err (.loadFailed 5 (.external 3 [.internal]))
    ∧ applyLoop (regOf handlerOk) fxLoadFail db0 [txGood] Staged.empty []
        = applyLoop (regOf handlerOk) fxLoadFail db0 [] Staged.empty ([] ++ [txGood])
    ∧ errorsIs (.loadFailed 5 (.external 3 [.internal])) .internal
        = errorsIs (.external 3 [.internal]) .internal :=
  c3_load_failure_skips_and_continues (regOf handlerOk) fxLoadFail db0 txGood
    [] Staged.empty [] 5 1 (.external 3 [.internal]) rfl rfl rfl rfl

/-- C4 counterexample: a transaction whose execution fails with the
no-balance error (not Internal) is not skipped, Apply succeeds, and the
mutation its execution registered is committed and visible in the store —
refuting the claim that the effects of such a transaction are discarded and
no mutation from it reaches the Staged State or the store. -/
theorem c4_counterexample :
    (Apply (regOf handlerNB) fxNone db0 3 [txGood]).1 = .ok []
    ∧ (Apply (regOf handlerNB) fxNone db0 3 [txGood]).2.get? 99
        = some { acct99 with layer := 3 }
    ∧ db0.get? 99 = none :=
  ⟨rfl, rfl, rfl⟩

/-- C4 (amended): for every transaction whose execution returns an error not
wrapping Internal, the batch continues with the next transaction and the
transaction is not added to the skipped list, but its effects are not
discarded: the loop still runs the context flush, so the accumulated
mutations (the principal account with its consumed nonce, plus every account
the execution changed) enter the Staged State exactly as for a successful
transaction. -/
theorem c4_exec_error_still_flushes (reg : Address → Option Handler)
    (fx : StoreFx) (db : Store) (t : RawTx) (rest : List RawTx) (ss : Staged)
    (acc : List RawTx) (hd : Header) (ctx : Context) (args : Args)
    (out : ExecOut) (e : GoErr)
    (hp : parse (stagedLoader fx db ss) reg t = .ok (hd, ctx, args))
    (hn : ctx.account.nextNonce = ctx.header.nonce)
    (hx : ctx.handler.execH ctx.account ctx.method args = out)
    (ho : out.err = some e)
    (hi : errorsIs e .internal = false) :
    applyLoop reg fx db (t :: rest) ss acc
      = applyLoop reg fx db rest (ctxApply ctx.header out.account out.changed ss) acc :=
  applyLoop_cons_execCont reg fx db t rest ss acc hd ctx args out e hp hn hx ho hi

/-- Execution outcome of the no-balance fixture handler. -/
def outNB : ExecOut :=
  { account := acctP, changed := [acct99], err := some (.sentinel .noBalance) }

/-- Execution outcome of the internal-error fixture handler. -/
def outInt : ExecOut :=
  { account := acctP, changed := [acct99], err := some (.external 1 [.internal]) }

/-- C4 witness: the amended statement at the concrete no-balance handler. -/
theorem c4_witness :
    applyLoop (regOf handlerNB) fxNone db0 [txGood] Staged.empty []
      = applyLoop (regOf handlerNB) fxNone db0 []
          (ctxApply (ctxW handlerNB db0 fxNone).header outNB.account
            outNB.changed Staged.empty) [] :=
  c4_exec_error_still_flushes (regOf handlerNB) fxNone db0 txGood [] Staged.empty []
    { principal := 5, nonce := 0, maxSpend := 0 } (ctxW handlerNB db0 fxNone) 0
    outNB (.sentinel .noBalance) rfl rfl rfl rfl rfl

/-- C5: if the execution of a reached transaction returns an error wrapping
Internal, the loop aborts with exactly that error; and whenever the batch
loop aborts with an error, Apply propagates it and the visible store is the
initial store — nothing from the batch, including earlier successful
transactions, was committed or is visible to subsequent reads. -/
theorem c5_internal_exec_aborts (reg : Address → Option Handler)
    (fx : StoreFx) (db : Store) (lid : Nat) (t : RawTx) (rest txs : List RawTx)
    (ss : Staged) (acc : List RawTx) (hd : Header) (ctx : Context)
    (args : Args) (out : ExecOut) (e : GoErr)
    (hp : parse (stagedLoader fx db ss) reg t = .ok (hd, ctx, args))
    (hn : ctx.account.nextNonce = ctx.header.nonce)
    (hx : ctx.handler.execH ctx.account ctx.method args = out)
    (ho : out.err = some e)
    (hi : errorsIs e .internal = true)
    (ht : fx.txFail = none)
    (hl : applyLoop reg fx db txs Staged.empty [] = .err e) :
    applyLoop reg fx db (t :: rest) ss acc = .err e
    ∧ Apply reg fx db lid txs = (.err e, db) :=
  ⟨applyLoop_cons_execInternal reg fx db t rest ss acc hd ctx args out e hp hn hx ho hi,
    Apply_loop_err reg fx db lid txs e ht hl⟩

/-- C5 witness: the concrete handler whose execution fails with an error
wrapping ErrInternal. -/
theorem c5_witness :
    applyLoop (regOf handlerInt) fxNone db0 [txGood] Staged.empty []
        = .err (.external 1 [.internal])
    ∧ Apply (regOf handlerInt) fxNone db0 3 [txGood]
        = (.err (.external 1 [.internal]), db0) :=
  c5_internal_exec_aborts (regOf handlerInt) fxNone db0 3 txGood [] [txGood]
    Staged.empty [] { principal := 5, nonce := 0, maxSpend := 0 }
    (ctxW handlerInt db0 fxNone) 0 outInt
    (.external 1 [.internal]) rfl rfl rfl rfl rfl rfl rfl

/-- C6: the unknown-template error branch of parse formats the account
recorded template pointer; for a spawn transaction (method 0) whose decoded
template address misses the registry while the principal account has no
recorded template address, this dereferences nil and panics — both directly
in parse and through Apply — so parse is not total at the public interface. -/
theorem c6_spawn_unknown_template_crash :
    parse (stagedLoader fxNone [] Staged.empty) regNone txSpawnUnknown
        = .crash .nilTemplateDeref
    ∧ (Apply regNone fxNone [] 1 [txSpawnUnknown]).1 = .crash .nilTemplateDeref :=
  ⟨rfl, rfl⟩

/-- C7 counterexample: a spawn transaction from an already-spawned account
whose decoded template address 42 misses the registry fails with the plain
unknown-template error — which moreover reports the account template 7, not
the failing address 42 — and that error does not wrap the ErrMalformed
sentinel, refuting the claimed Malformed classification. -/
theorem c7_counterexample :
    parse (stagedLoader fxNone db0 Staged.empty) regNone txSpawnUnknownSpawned
        = .err (.unknownTemplate 7)
    ∧ errorsIs (.unknownTemplate 7) .malformed = false :=
  ⟨rfl, rfl⟩

/-- C7 (amended): for every transaction, spawn or not, whose resolved
template address misses the registry while the principal account carries a
recorded template address, parsing fails with a returned plain formatted
error naming the account recorded template — an error that does not wrap the
ErrMalformed sentinel; when the account has no recorded template address the
branch panics instead of returning (see the C6 theorem). -/
theorem c7_unknown_template_plain_error (L : Address → Except GoErr Account)
    (reg : Address → Option Handler) (t : RawTx) (p m : Nat) (acct : Account)
    (tpl ta : Address)
    (h1 : t.version = .ok 0) (h2 : t.principal = .ok p)
    (h3 : t.method = .ok m) (h4 : L p = .ok acct)
    (h5 : resolveTemplate m t acct = .ok tpl) (h6 : reg tpl = none)
    (h7 : acct.template = some ta) :
    parse L reg t = .err (.unknownTemplate ta)
    ∧ errorsIs (.unknownTemplate ta) .malformed = false := by
  constructor
  · simp only [parse, h1, h2, h3, h4, h5, h6, h7]
    simp
  · rfl

/-- C7 witness: the amended statement at a concrete non-spawn transaction
over the spawned fixture account. -/
theorem c7_witness :
    parse (stagedLoader fxNone db0 Staged.empty) regNone txGood
        = .err (.unknownTemplate 7)
    ∧ errorsIs (.unknownTemplate 7) .malformed = false :=
  c7_unknown_template_plain_error (stagedLoader fxNone db0 Staged.empty)
    regNone txGood 5 1 acctP 7 7 rfl rfl rfl rfl rfl rfl rfl

/-- C8: a reached transaction that parses but whose header nonce differs
from the principal account current next-nonce (as loaded through the staged
state) is appended to the skipped list and the loop continues over the
unchanged staged state — no execution and no mutation happen for it — and it
is a member of the skipped list Apply returns. -/
theorem c8_nonce_mismatch_skipped (reg : Address → Option Handler)
    (fx : StoreFx) (db : Store) (t : RawTx) (rest sk : List RawTx)
    (ss s2 : Staged) (acc : List RawTx) (hd : Header) (ctx : Context)
    (args : Args)
    (hp : parse (stagedLoader fx db ss) reg t = .ok (hd, ctx, args))
    (hn : ctx.account.nextNonce ≠ ctx.header.nonce)
    (hrest : applyLoop reg fx db rest ss (acc ++ [t]) = .ok (sk, s2)) :
    applyLoop reg fx db (t :: rest) ss acc = .ok (sk, s2) ∧ t ∈ sk := by
  have hstep := applyLoop_cons_nonceMismatch reg fx db t rest ss acc hd ctx args hp hn
  refine ⟨hstep.trans hrest, ?_⟩
  exact applyLoop_mem_acc reg fx db rest ss (acc ++ [t]) sk s2 t
    (List.mem_append_right _ (List.mem_cons_self t [])) hrest

/-- The fixture account with its nonce counter advanced to 4. -/
def acctP4 : Account := { acctP with nextNonce := 4 }

/-- Store holding the advanced-nonce fixture account. -/
def dbBad : Store := [acctP4]

/-- The context `parse` yields for `txGood` over `dbBad`. -/
def ctxBadNonce : Context :=
  { ctxW handlerOk dbBad fxNone with account := acctP4 }

/-- C8 witness: the fixture account with next nonce 4 against a transaction
carrying nonce 0. -/
theorem c8_witness :
    applyLoop (regOf handlerOk) fxNone dbBad [txGood] Staged.empty []
        = .ok ([txGood], Staged.empty)
    ∧ txGood ∈ [txGood] :=
  c8_nonce_mismatch_skipped (regOf handlerOk) fxNone dbBad txGood [] [txGood]
    Staged.empty Staged.empty [] { principal := 5, nonce := 0, maxSpend := 0 }
    ctxBadNonce 0 rfl (by decide) rfl

/-- C9: at the end of every successful Apply, the committed store is the
initial store overwritten with exactly the stamped flush of the staged
state — every pending account mutation — and every record in that flush
carries the current layer. -/
theorem c9_layer_stamped_on_flush (reg : Address → Option Handler)
    (fx : StoreFx) (db : Store) (lid : Nat) (txs sk : List RawTx)
    (ss : Staged) (db2 : Store)
    (hloop : applyLoop reg fx db txs Staged.empty [] = .ok (sk, ss))
    (h : Apply reg fx db lid txs = (.ok sk, db2)) :
    db2 = (stampWrites lid ss).foldl Store.update db
    ∧ (stampWrites lid ss).all (layerIs lid) = true := by
  obtain ⟨ss2, hl2, hdb⟩ := Apply_ok_loop reg fx db lid txs sk db2 h
  have hss : ss2 = ss := by
    rw [hloop] at hl2
    simpa using hl2.symm
  exact ⟨hss ▸ hdb, stampWrites_all_layer lid ss⟩

/-- C9 witness: the successful single-transaction fixture batch. -/
theorem c9_witness :
    [{ acctP with nextNonce := 1, layer := 3 }, { acct99 with layer := 3 }]
        = (stampWrites 3 { buffer := [acct99, { acctP with nextNonce := 1 }] }).foldl
            Store.update db0
    ∧ (stampWrites 3 { buffer := [acct99, { acctP with nextNonce := 1 }] }).all
        (layerIs 3) = true :=
  c9_layer_stamped_on_flush (regOf handlerOk) fxNone db0 3 [txGood] []
    { buffer := [acct99, { acctP with nextNonce := 1 }] }
    [{ acctP with nextNonce := 1, layer := 3 }, { acct99 with layer := 3 }]
    (by decide) (by decide)

/-- C10 counterexample: two genesis records for the same address — the
second overwrites the first inside the single genesis transaction, so after
a successful ApplyGenesis the first given record does not read back,
refuting the claim for arbitrary record lists. -/
theorem c10_counterexample :
    (ApplyGenesis fxNone [] [acct99, { acct99 with balance := 20 }]).1 = .ok ()
    ∧ (ApplyGenesis fxNone [] [acct99, { acct99 with balance := 20 }]).2.get? 99
        = some { acct99 with balance := 20 }
    ∧ readsBack (ApplyGenesis fxNone [] [acct99, { acct99 with balance := 20 }]).2 acct99
        = false :=
  ⟨rfl, rfl, rfl⟩

/-- C10 (amended): for every list of genesis records with pairwise distinct
addresses, ApplyGenesis writes each record verbatim within one store
transaction with no execution and no nonce checks, and on success a
subsequent read returns exactly each given record unmodified; on any
transaction-open, write or commit failure it returns the error and the
visible store is unchanged. -/
theorem c10_genesis_roundtrip_distinct (fx : StoreFx) (db : Store)
    (genesis : List Account)
    (h1 : (genesis.map Account.address).Nodup) :
    genesisRoundtrip fx db genesis = true := by
  unfold genesisRoundtrip ApplyGenesis
  cases ht : fx.txFail with
  | some e => simp
  | none =>
    cases hg : genesisGo fx db genesis with
    | error e => simp
    | ok db2 =>
      simp only []
      rw [List.all_eq_true]
      intro a ha
      have := genesisGo_reads_back fx genesis db db2 h1 hg a ha
      simp [readsBack, this]

/-- C10 witness: two distinct-address records round-trip. -/
theorem c10_witness :
    genesisRoundtrip fxNone [] [acct99, acctP] = true :=
  c10_genesis_roundtrip_distinct fxNone [] [acct99, acctP] (by decide)

end GenVM
